import Mathlib

/-!
Verification of the table-extraction core in
apps/server/chalicelib/pdf_extractor.py (class PDFExtractor).

The Python functions are translated into executable Lean definitions over
`String` / `List Char`.  Conventions used throughout:

* Python strings are Lean `String`s (a structure wrapping `List Char`);
  all character classes are modelled over the ASCII fragment that the
  extractor actually manipulates (the regexes in the source use plain
  ASCII classes and the `re.IGNORECASE` flag only over ASCII letters).
* Python `str.strip()` is `pyStrip`, stripping the six ASCII whitespace
  characters.
* `float(...)` is modelled by the recognizer `pyFloatOk`, which accepts
  exactly the ASCII strings Python's float constructor accepts: optional
  surrounding whitespace, an optional sign, and either the words
  inf / infinity / nan (case-insensitive) or a decimal/exponent literal
  with single underscores allowed between digits.
* Each regular expression of the source is translated into a dedicated
  search function; the translation is noted next to each definition.
* Fractions such as the 0.3 numeric-density threshold are modelled as
  rationals; the Python float comparisons they replace agree with the
  rational ones for every table/row size below 10^14 cells, far beyond
  anything the extractor can produce.
-/

/-- The six ASCII whitespace characters: Python regex class \s and the
default character set of Python str.strip(). -/
def isPySpace (c : Char) : Bool :=
  c = ' ' || c = '\t' || c = '\n' || c = '\r' || c = '\x0b' || c = '\x0c'

/-- Python str.strip() on a character list. -/
def pyStripL (l : List Char) : List Char :=
  ((l.dropWhile isPySpace).reverse.dropWhile isPySpace).reverse

/-- Python str.strip(). -/
def pyStrip (s : String) : String := ⟨pyStripL s.data⟩

/-- Python regex word character (ASCII fragment of \w). -/
def isWordCh (c : Char) : Bool := c.isAlphanum || c = '_'

/-- Python str.lower() on a character list (ASCII). -/
def pyLowerL (l : List Char) : List Char := l.map Char.toLower

/-- Python str.lower(). -/
def pyLower (s : String) : String := ⟨pyLowerL s.data⟩

/-- Python substring test (the in operator): pat occurs contiguously in hay. -/
def containsSubL (hay pat : List Char) : Bool :=
  match hay with
  | [] => pat.isEmpty
  | _ :: t => pat.isPrefixOf hay || containsSubL t pat

/-- Python substring test on strings. -/
def containsSub (hay pat : String) : Bool := containsSubL hay.data pat.data

/-- Python str.count of the two-character pattern of two spaces:
non-overlapping occurrences, scanned left to right. -/
def countDoubleSpace : List Char → Nat
  | ' ' :: ' ' :: rest => countDoubleSpace rest + 1
  | _ :: rest => countDoubleSpace rest
  | [] => 0

/-- Number of maximal digit runs, as counted by re.findall of one-or-more
digits. The flag records whether the previous character was a digit. -/
def countDigitRunsGo : Bool → List Char → Nat
  | _, [] => 0
  | prevDigit, c :: rest =>
    if c.isDigit then (if prevDigit then 0 else 1) + countDigitRunsGo true rest
    else countDigitRunsGo false rest

/-- Number of maximal digit runs in a character list. -/
def countDigitRuns (l : List Char) : Nat := countDigitRunsGo false l

/-- Tail of a Python float digit part: digits, with single underscores
allowed between two digits. Returns the unconsumed remainder. -/
def chompDigitTail : List Char → List Char
  | [] => []
  | [c] => if c.isDigit then [] else [c]
  | c :: d :: rest =>
    if c.isDigit then chompDigitTail (d :: rest)
    else if c = '_' && d.isDigit then chompDigitTail rest
    else c :: d :: rest

/-- A Python float digit part -- at least one digit, underscores allowed
between digits. Some remainder on success, none if no leading digit. -/
def chompDigitPart : List Char → Option (List Char)
  | [] => none
  | c :: rest => if c.isDigit then some (chompDigitTail rest) else none

/-- The mantissa of a Python float literal: digitpart [. [digitpart]]
or . digitpart. -/
def chompMantissa (l : List Char) : Option (List Char) :=
  match chompDigitPart l with
  | some rest =>
    match rest with
    | '.' :: r =>
      match chompDigitPart r with
      | some r2 => some r2
      | none => some r
    | _ => some rest
  | none =>
    match l with
    | '.' :: r => chompDigitPart r
    | _ => none

/-- Optional exponent of a Python float literal: (e|E) [sign] digitpart. -/
def chompExponent (l : List Char) : Option (List Char) :=
  match l with
  | c :: rest =>
    if c = 'e' || c = 'E' then
      match rest with
      | s :: r => if s = '+' || s = '-' then chompDigitPart r else chompDigitPart rest
      | [] => none
    else some l
  | [] => some []

/-- Drop one optional leading sign character. -/
def stripSign : List Char → List Char
  | c :: rest => if c = '+' || c = '-' then rest else c :: rest
  | [] => []

/-- Recognizer for Python float(s) succeeding: surrounding whitespace,
optional sign, then inf / infinity / nan (case-insensitive) or a decimal
literal with optional fraction and exponent. -/
def pyFloatOk (s : String) : Bool :=
  let l := stripSign (pyStripL s.data)
  let low := pyLowerL l
  if low = "inf".data || low = "infinity".data || low = "nan".data then true
  else
    match chompMantissa l with
    | some rest =>
      match chompExponent rest with
      | some [] => true
      | _ => false
    | none => false

/-- Characters removed by the regex class of dollar, euro, pound, yen and
percent used in _is_number. -/
def isCurrencyOrPercent (c : Char) : Bool :=
  c = '$' || c = '€' || c = '£' || c = '¥' || c = '%'

/-- Characters removed by the regex class of dollar, euro, pound, yen and
comma used in _normalize_number_format. -/
def isCurrencyOrComma (c : Char) : Bool :=
  c = '$' || c = '€' || c = '£' || c = '¥' || c = ','

/-- Remove currency symbols and commas (re.sub of the currency-comma class). -/
def stripCurrencyCommaL (l : List Char) : List Char :=
  l.filter (fun c => !isCurrencyOrComma c)

/-- PDFExtractor._is_number: strip whitespace, remove currency/percent
characters, then try float(). -/
def isNumber (s : String) : Bool :=
  pyFloatOk ⟨(pyStripL s.data).filter (fun c => !isCurrencyOrPercent c)⟩

/-- PDFExtractor._contains_number: re.search of a digit. -/
def containsNumber (s : String) : Bool := s.data.any Char.isDigit

/-- Digit or comma: the regex class of digits and comma. -/
def isDigitOrComma (c : Char) : Bool := c.isDigit || c = ','

/-- Match of the percent-run regex (group of digits/commas, optional dot and
digits, then a percent sign) anchored at the start of l; returns the group.
For this pattern greedy matching never needs backtracking, since no
shorter choice of a greedy piece can place the cursor on a percent sign. -/
def percentRunAt (l : List Char) : Option (List Char) :=
  let run := l.takeWhile isDigitOrComma
  let rest := l.dropWhile isDigitOrComma
  if run.isEmpty then none
  else
    match rest with
    | '%' :: _ => some run
    | '.' :: r2 =>
      let ds := r2.takeWhile Char.isDigit
      let r3 := r2.dropWhile Char.isDigit
      match r3 with
      | '%' :: _ => some (run ++ '.' :: ds)
      | _ => none
    | _ => none

/-- re.search of the percent-run regex: leftmost match group. -/
def searchPercentRun : List Char → Option (List Char)
  | [] => none
  | c :: rest =>
    match percentRunAt (c :: rest) with
    | some g => some g
    | none => searchPercentRun rest

/-- Match, at the current position, of digits, an optional dot with digits,
optional whitespace and the letter m followed by a word boundary (the
million-suffix regex without its leading word boundary, IGNORECASE). -/
def matchNumberThenM (l : List Char) : Bool :=
  let ds := l.takeWhile Char.isDigit
  let r1 := l.dropWhile Char.isDigit
  if ds.isEmpty then false
  else
    let r2 := match r1 with
      | '.' :: r => r.dropWhile Char.isDigit
      | _ => r1
    let r3 := r2.dropWhile isPySpace
    match r3 with
    | c :: r4 =>
      (c = 'm' || c = 'M') && (match r4 with | [] => true | d :: _ => !isWordCh d)
    | [] => false

/-- re.search of the full million-suffix regex (word boundary, digits,
optional fraction, optional space, m, word boundary). prev is the character
before the current position, used for the leading word boundary. -/
def searchNumMGo (prev : Option Char) : List Char → Bool
  | [] => false
  | c :: rest =>
    ((match prev with | none => true | some p => !isWordCh p) &&
      matchNumberThenM (c :: rest))
    || searchNumMGo (some c) rest

/-- Match of whitespace-then-m-then-word-boundary (the pattern of the
re.sub removing an m suffix, IGNORECASE) at the current position; returns
the remainder after the match. -/
def matchSpaceMB (l : List Char) : Option (List Char) :=
  let r := l.dropWhile isPySpace
  match r with
  | c :: r2 =>
    if (c = 'm' || c = 'M') && (match r2 with | [] => true | d :: _ => !isWordCh d)
    then some r2 else none
  | [] => none

/-- re.sub removing every whitespace-m-boundary occurrence (fuelled scan;
the fuel of the length of the list is always sufficient because every
step consumes at least one character). -/
def subSpaceMGo : Nat → List Char → List Char
  | 0, l => l
  | _ + 1, [] => []
  | fuel + 1, c :: rest =>
    match matchSpaceMB (c :: rest) with
    | some r2 => subSpaceMGo fuel r2
    | none => c :: subSpaceMGo fuel rest

/-- re.sub of the whitespace-m-boundary pattern by the empty string. -/
def subSpaceM (l : List Char) : List Char := subSpaceMGo l.length l

/-- Match of whitespace-then-million-then-word-boundary (IGNORECASE) at the
current position; returns the remainder after the match. -/
def matchSpaceMillion (l : List Char) : Option (List Char) :=
  let r := l.dropWhile isPySpace
  if pyLowerL (r.take 7) = "million".data && r.length ≥ 7 then
    match r.drop 7 with
    | [] => some []
    | d :: r2 => if isWordCh d then none else some (d :: r2)
  else none

/-- re.sub removing every whitespace-million-boundary occurrence (fuelled
scan, fuel as in subSpaceMGo). -/
def subSpaceMillionGo : Nat → List Char → List Char
  | 0, l => l
  | _ + 1, [] => []
  | fuel + 1, c :: rest =>
    match matchSpaceMillion (c :: rest) with
    | some r2 => subSpaceMillionGo fuel r2
    | none => c :: subSpaceMillionGo fuel rest

/-- re.sub of the whitespace-million-boundary pattern by the empty string. -/
def subSpaceMillion (l : List Char) : List Char := subSpaceMillionGo l.length l

/-- Cell starts with an opening and ends with a closing parenthesis
(Python startswith/endswith pair used by the normalizer). -/
def wrappedInParens (l : List Char) : Bool :=
  decide (l.head? = some '(') && decide (l.getLast? = some ')')

/-- The million-indicator cleanup step of _normalize_number_format: if the
million-suffix regex fires, drop every m suffix; otherwise, if the word
million occurs, drop every million suffix. -/
def cleanedMillion (cleaned : List Char) : List Char :=
  if searchNumMGo none cleaned then subSpaceM cleaned
  else if containsSubL (pyLowerL cleaned) "million".data then subSpaceMillion cleaned
  else cleaned

/-- PDFExtractor._normalize_number_format, translated branch for branch
from pdf_extractor.py lines 716-784. -/
def normalizeNumberFormat (cell : String) : String :=
  if pyStripL cell.data = [] then cell
  else
    let oc := pyStripL cell.data
    if oc = ['-'] then "0"
    else if oc.contains '%' then
      (if wrappedInParens oc then (⟨oc⟩ : String)
       else
         match searchPercentRun oc with
         | some g => (⟨g.filter (fun c => !(c = ','))⟩ : String) ++ "%"
         | none => (⟨oc⟩ : String))
    else if wrappedInParens oc && isNumber ⟨stripCurrencyCommaL ((oc.drop 1).dropLast)⟩ then
      "-" ++ (⟨stripCurrencyCommaL ((oc.drop 1).dropLast)⟩ : String)
    else if oc.any Char.isDigit then
      let cleaned2 := cleanedMillion (stripCurrencyCommaL oc)
      if isNumber ⟨cleaned2⟩ then (⟨cleaned2⟩ : String) else (⟨oc⟩ : String)
    else (⟨oc⟩ : String)

/-- Python text.split of the newline character (empty pieces kept). -/
def splitNlGo : List Char → List Char → List (List Char)
  | [], acc => [acc.reverse]
  | c :: rest, acc =>
    if c = '\n' then acc.reverse :: splitNlGo rest [] else splitNlGo rest (c :: acc)

/-- text_content.split of the newline character, as a list of strings. -/
def pySplitLines (s : String) : List String := (splitNlGo s.data []).map (fun l => (⟨l⟩ : String))

/-- The header_indicators list of _is_header_line. -/
def headerIndicators : List String :=
  ["page", "total", "summary", "report", "statement",
   "period", "date", "year", "quarter", "month"]

/-- Python str.isupper (ASCII): at least one letter and no lowercase letter. -/
def pyIsUpper (l : List Char) : Bool :=
  l.any (fun c => c.isAlpha) && l.all (fun c => !c.isAlpha || c.isUpper)

/-- PDFExtractor._is_header_line (lines 583-615): header indicator words,
mostly-uppercase lines, or lines under 30 percent alphanumeric (the float
comparison is modelled by the exact rational one, which agrees with it
for all line lengths the extractor can meet). -/
def isHeaderLine (line : String) : Bool :=
  if headerIndicators.any (fun ind => containsSub (pyLower line) ind) then true
  else if line.data.length > 3 && pyIsUpper line.data then true
  else if line.data.length > 0
      && decide (10 * line.data.countP (fun c => c.isAlphanum) < 3 * line.data.length) then true
  else false

/-- The end_indicators list of _is_table_end. -/
def endIndicators : List String :=
  ["total", "sum", "grand total", "subtotal",
   "notes:", "footnotes:", "source:", "reference:"]

/-- PDFExtractor._is_table_end (lines 617-639). -/
def isTableEnd (line : String) : Bool :=
  endIndicators.any (fun ind => containsSub (pyLower line) ind)

/-- re.split at runs of two or more whitespace characters (fuelled scan;
fuel of the list length is always sufficient). -/
def splitWs2Go : Nat → List Char → List Char → List (List Char)
  | 0, l, tok => [tok.reverse ++ l]
  | _ + 1, [], tok => [tok.reverse]
  | fuel + 1, c :: rest, tok =>
    if isPySpace c then
      match rest with
      | d :: rest2 =>
        if isPySpace d then tok.reverse :: splitWs2Go fuel (rest2.dropWhile isPySpace) []
        else splitWs2Go fuel rest (c :: tok)
      | [] => [(c :: tok).reverse]
    else splitWs2Go fuel rest (c :: tok)

/-- Python line.split at a single separator character (empty pieces kept). -/
def splitOnCh (sep : Char) : List Char → List Char → List (List Char)
  | [], acc => [acc.reverse]
  | c :: rest, acc =>
    if c = sep then acc.reverse :: splitOnCh sep rest [] else splitOnCh sep rest (c :: acc)

/-- re.split at commas not immediately followed by a digit. -/
def splitCommaND : List Char → List Char → List (List Char)
  | [], acc => [acc.reverse]
  | ',' :: rest, acc =>
    (match rest with
     | d :: _ =>
       if d.isDigit then splitCommaND rest (',' :: acc)
       else acc.reverse :: splitCommaND rest []
     | [] => [acc.reverse, []])
  | c :: rest, acc => splitCommaND rest (c :: acc)

/-- Python line.split() with no argument: words separated by whitespace
runs, no empty pieces (fuelled scan; fuel of the length suffices). -/
def splitPyWsGo : Nat → List Char → List (List Char)
  | 0, _ => []
  | fuel + 1, l =>
    match l.dropWhile isPySpace with
    | [] => []
    | c :: rest =>
      ((c :: rest).takeWhile (fun ch => !isPySpace ch))
        :: splitPyWsGo fuel ((c :: rest).dropWhile (fun ch => !isPySpace ch))

/-- Python line.split() with no argument. -/
def splitPyWs (l : List Char) : List (List Char) := splitPyWsGo l.length l

/-- Strip each piece and keep non-empty pieces, as the list comprehension
in _parse_table_row does, returning strings. -/
def stripAndFilter (cols : List (List Char)) : List String :=
  ((cols.map pyStripL).filter (fun t => !t.isEmpty)).map (fun t => (⟨t⟩ : String))

/-- Strategy 1 of _parse_table_row: split at multi-space runs. -/
def rowStrategyMultiSpace (l : List Char) : List String :=
  if containsSubL l [' ', ' '] then stripAndFilter (splitWs2Go l.length l []) else []

/-- Strategy 2 of _parse_table_row: split at tabs. -/
def rowStrategyTabs (l : List Char) : List String :=
  if l.contains '\t' then stripAndFilter (splitOnCh '\t' l []) else []

/-- Strategy 3 of _parse_table_row: split at commas not followed by a digit. -/
def rowStrategyCommas (l : List Char) : List String :=
  if l.contains ',' then stripAndFilter (splitCommaND l []) else []

/-- Strategy 4 of _parse_table_row: whitespace words. -/
def rowStrategyWords (l : List Char) : List String :=
  (splitPyWs l).map (fun t => (⟨t⟩ : String))

/-- PDFExtractor._parse_table_row (lines 641-686): the first strategy
yielding more than one column wins, otherwise the whole line is a single
column (or no columns for the empty line). -/
def parseTableRow (line : String) : List String :=
  let c1 := rowStrategyMultiSpace line.data
  if c1.length > 1 then c1 else
  let c2 := rowStrategyTabs line.data
  if c2.length > 1 then c2 else
  let c3 := rowStrategyCommas line.data
  if c3.length > 1 then c3 else
  let c4 := rowStrategyWords line.data
  if c4.length > 1 then c4 else
  if line = "" then [] else [line]

/-- PDFExtractor._parse_table_lines (lines 545-581): skip blank and
header-like lines, collect parsed rows, stop after a table-end line. -/
def parseTableLines : List String → List (List String)
  | [] => []
  | line :: rest =>
    let s := pyStrip line
    if s = "" then parseTableLines rest
    else if isHeaderLine s then parseTableLines rest
    else
      let row := parseTableRow s
      (if row.isEmpty then [] else [row])
        ++ (if isTableEnd s then [] else parseTableLines rest)

/-- The anchor scan of _find_table_by_identifier: the suffix of the line
list from the first line containing the identifier, case-insensitively. -/
def findAnchorSuffix (ident : String) : List String → Option (List String)
  | [] => none
  | line :: rest =>
    if containsSub (pyLower line) (pyLower ident) then some (line :: rest)
    else findAnchorSuffix ident rest

/-- PDFExtractor._find_table_by_identifier (lines 510-543): none when the
anchor occurs in no line, otherwise the rows parsed from the anchor line on. -/
def findTableByIdentifier (text ident : String) : Option (List (List String)) :=
  match findAnchorSuffix ident (pySplitLines text) with
  | none => none
  | some suffix => some (parseTableLines suffix)

/-- PDFExtractor._is_meaningful_numerical_data year check: the anchored
regex of 19 or 20 followed by two digits, over the whole cell. -/
def isBareYear (l : List Char) : Bool :=
  match l with
  | [a, b, c, d] =>
    ((a = '1' && b = '9') || (a = '2' && b = '0')) && c.isDigit && d.isDigit
  | _ => false

/-- One to three digits and nothing else. -/
def isDigits1to3 (l : List Char) : Bool :=
  decide (1 ≤ l.length) && decide (l.length ≤ 3) && l.all Char.isDigit

/-- PDFExtractor._is_meaningful_numerical_data page check: the anchored
regex of an optional page-plus-whitespace followed by one to three digits. -/
def isPageToken (l : List Char) : Bool :=
  ("page".data.isPrefixOf l && isDigits1to3 ((l.drop 4).dropWhile isPySpace))
    || isDigits1to3 l

/-- PDFExtractor._is_meaningful_numerical_data (lines 936-969). The final
regex search of a digit run succeeds exactly when a digit is present. -/
def isMeaningfulNumericalData (cell : String) : Bool :=
  let c := pyLowerL (pyStripL cell.data)
  if isBareYear c then false
  else if isPageToken c then false
  else if decide (c.length > 10)
      && decide (c.countP (fun ch => ch.isAlpha) > c.countP (fun ch => ch.isDigit)) then false
  else c.any Char.isDigit

/-- The non-empty cells of a table, in reading order: cells that are truthy
and have a non-empty strip, as counted by _validate_table_has_numerical_data. -/
def nonEmptyCells (table : List (List String)) : List String :=
  (table.map (fun row => row.filter
    (fun cell => !cell.data.isEmpty && !(pyStripL cell.data).isEmpty))).flatten

/-- Count of non-empty cells. -/
def totalCells (table : List (List String)) : Nat := (nonEmptyCells table).length

/-- Count of non-empty cells whose strip contains a digit and is meaningful
numerical data. -/
def numericalCells (table : List (List String)) : Nat :=
  ((nonEmptyCells table).filter
    (fun cell => containsNumber (pyStrip cell) && isMeaningfulNumericalData (pyStrip cell))).length

/-- PDFExtractor._validate_table_has_numerical_data (lines 890-934), with
the threshold and the cell fraction as rationals (the Python float
comparison they model agrees with the rational one for all cell counts
below 10^14). -/
def validateTableHasNumericalData (table : List (List String)) (thr : ℚ) : Bool :=
  if table.isEmpty then false
  else if totalCells table = 0 then false
  else decide ((numericalCells table : ℚ) / (totalCells table : ℚ) ≥ thr)

/-- Word-boundary-aware search of a literal pattern (the translation of the
regex word-boundary searches in _is_potential_header). reqB and reqA state
whether a word boundary is required before and after the pattern; prev is
the character preceding the current position. -/
def patAt (reqB reqA : Bool) (prev : Option Char) (l w : List Char) : Bool :=
  (!reqB || (match prev with | none => true | some p => !isWordCh p))
    && w.isPrefixOf l
    && (!reqA || (match l.drop w.length with | [] => true | d :: _ => !isWordCh d))

/-- Scan of patAt over every position of the text. -/
def searchWordGo (reqB reqA : Bool) (w : List Char) (prev : Option Char) : List Char → Bool
  | [] => patAt reqB reqA prev [] w
  | c :: rest => patAt reqB reqA prev (c :: rest) w || searchWordGo reqB reqA w (some c) rest

/-- Search of a pattern enclosed in word boundaries on both sides. -/
def containsRegexWord (t w : String) : Bool := searchWordGo true true w.data none t.data

/-- Search of a pattern with a word boundary on the left only (as the
month alternation regex requires for march). -/
def containsWordStart (t w : String) : Bool := searchWordGo true false w.data none t.data

/-- Search of a pattern with a word boundary on the right only (as the
month alternation regex requires for december). -/
def containsWordEnd (t w : String) : Bool := searchWordGo false true w.data none t.data

/-- The header_patterns list of _is_potential_header (lines 861-874),
pattern for pattern. The month alternation binds its word boundaries to
march and december only, so june and september are plain substring
searches, exactly as in the source regex. -/
def headerPatternsMatch (t : String) : Bool :=
  containsRegexWord t "year" || containsRegexWord t "quarter" || containsRegexWord t "month"
  || containsRegexWord t "2024" || containsRegexWord t "2023" || containsRegexWord t "2022"
  || containsRegexWord t "2021" || containsRegexWord t "2020"
  || containsWordStart t "march" || containsSub t "june" || containsSub t "september"
  || containsWordEnd t "december"
  || containsRegexWord t "amount" || containsRegexWord t "value"
  || containsRegexWord t "total" || containsRegexWord t "balance"
  || containsRegexWord t "thousand" || containsRegexWord t "million" || containsRegexWord t "billion"
  || containsRegexWord t "assets" || containsRegexWord t "liabilities" || containsRegexWord t "equity"
  || containsRegexWord t "level 1" || containsRegexWord t "level 2" || containsRegexWord t "level 3"
  || containsRegexWord t "description" || containsRegexWord t "type" || containsRegexWord t "category"
  || containsRegexWord t "fair value" || containsRegexWord t "book value"
  || containsRegexWord t "market value"

/-- Python space.join of a row of strings. -/
def joinSpace (row : List String) : String :=
  match row with
  | [] => ""
  | r :: rest => rest.foldl (fun acc s => acc ++ " " ++ s) r

/-- PDFExtractor._is_potential_header (lines 844-887): joined lowered row
text against the header patterns, else the over-60-percent-digitless-cells
fallback (float comparison modelled by the exact rational one, which
agrees with it for all row lengths the extractor can meet). -/
def isPotentialHeader (row : List String) : Bool :=
  if row.isEmpty then false
  else if headerPatternsMatch (pyLower (joinSpace row)) then true
  else decide (5 * row.countP (fun c => !containsNumber c) > 3 * row.length)

/-- PDFExtractor._line_looks_like_table_data (lines 973-996). -/
def lineLooksLikeTableData (line : String) : Bool :=
  let s := pyStripL line.data
  if s.isEmpty then false
  else
    let seps := countDoubleSpace s + s.count '\t' + s.count '|'
    let nums := countDigitRuns s
    decide (seps ≥ 2) || (decide (seps ≥ 1) && decide (nums ≥ 2))

/-- The per-table metadata dictionary built by the extractor. -/
structure TableInfo where
  pageNumber : Nat
  tableIndex : Nat
  data : List (List String)
  headers : List String
  rowCount : Nat
  columnCount : Nat
  hasNumericData : Bool
  title : String
deriving DecidableEq, Repr

/-- The has_numeric_data flag: some truthy cell after the first row
contains a digit. -/
def rowsHaveNumericData (rows : List (List String)) : Bool :=
  (rows.drop 1).any (fun row => row.any (fun cell => !cell.data.isEmpty && containsNumber cell))

/-- The table_info dictionary built for a text-extracted table
(pdf_extractor.py lines 233-242 and 260-269). -/
def mkTextTableInfo (count : Nat) (rows : List (List String)) : TableInfo :=
  { pageNumber := 0
    tableIndex := count
    data := rows
    headers := rows.headD []
    rowCount := rows.length
    columnCount := (rows.headD []).length
    hasNumericData := rowsHaveNumericData rows
    title := "Table " ++ toString count }

/-- The accumulation loop of _extract_all_tables_from_text (lines 197-277):
cur is current_table, n is table_count. -/
def extractAllGo : List String → List (List String) → Nat → List TableInfo
  | [], cur, n => if cur.length > 1 then [mkTextTableInfo (n + 1) cur] else []
  | l :: ls, cur, n =>
    let s := pyStrip l
    if lineLooksLikeTableData s then
      extractAllGo ls (cur ++ (if (parseTableRow s).isEmpty then [] else [parseTableRow s])) n
    else if !cur.isEmpty then
      (if cur.length > 1 then mkTextTableInfo (n + 1) cur :: extractAllGo ls [] (n + 1)
       else extractAllGo ls [] n)
    else extractAllGo ls [] n

/-- PDFExtractor._extract_all_tables_from_text. -/
def extractAllTablesFromText (text : String) : List TableInfo :=
  extractAllGo (pySplitLines text) [] 0

/-- Modelled on the amended spec wording of exhaustive segmentation: group
maximal runs of consecutive table-data lines into candidate tables; a run
ends at the first blank or non-table-data line; runs shorter than 2 rows
are discarded. Stated independently of the accumulator loop above so the
refinement theorem for claim C7 compares the two. -/
def segmentTablesSpecGo : List String → List (List String) → List (List (List String))
  | [], run => if run.length ≥ 2 then [run] else []
  | l :: ls, run =>
    if lineLooksLikeTableData (pyStrip l) then
      segmentTablesSpecGo ls (run ++ [parseTableRow (pyStrip l)])
    else (if run.length ≥ 2 then [run] else []) ++ segmentTablesSpecGo ls []

/-- Spec-side exhaustive segmentation, data rows only. -/
def segmentTablesSpec (lines : List String) : List (List (List String)) :=
  segmentTablesSpecGo lines []

/-- The ValueError message of extract_table_data for a missing table. -/
def notFoundMsg (ident : String) : String :=
  "Table with identifier \x27" ++ ident ++ "\x27 not found in PDF"

/-- The ValueError message of extract_table_data for a non-numerical table. -/
def insufficientMsg (ident : String) : String :=
  "Table with identifier \x27" ++ ident ++
    "\x27 does not contain sufficient numerical data. Only tables with numerical data will be extracted."

/-- PDFExtractor.extract_table_data (lines 145-195), from the point where
the page text has been extracted: find the table by its identifier, raise
ValueError (modelled as Except.error) when missing or empty, normalize
every cell, then raise when the numerical-data validation fails. -/
def extractTableDataFromText (text ident : String) : Except String (List (List String)) :=
  match findTableByIdentifier text ident with
  | none => Except.error (notFoundMsg ident)
  | some td =>
    if td.isEmpty then Except.error (notFoundMsg ident)
    else
      let processed := td.map (fun row => row.map normalizeNumberFormat)
      if validateTableHasNumericalData processed (3 / 10) then Except.ok processed
      else Except.error (insufficientMsg ident)

/-- JSON values as decoded by json.loads. Numbers keep Python's int/float
distinction; a float literal is kept syntactically as mantissa and
power-of-ten exponent (jnum m e stands for the value m * 10 ^ e), which
the extractor only ever passes through unchanged. -/
inductive JsonVal where
  | jnull : JsonVal
  | jbool : Bool → JsonVal
  | jint : Int → JsonVal
  | jnum : Int → Int → JsonVal
  | jstr : String → JsonVal
  | jarr : List JsonVal → JsonVal
  | jobj : List (String × JsonVal) → JsonVal
deriving Repr

/-- The rational value denoted by a jnum literal. -/
def jnumVal (m e : Int) : ℚ := (m : ℚ) * (10 : ℚ) ^ e

/-- JSON whitespace. -/
def jsonWsCh (c : Char) : Bool := c = ' ' || c = '\t' || c = '\n' || c = '\r'

/-- Hexadecimal digit value. -/
def hexVal (c : Char) : Option Nat :=
  if c.isDigit then some (c.toNat - 48)
  else if 'a' ≤ c && c ≤ 'f' then some (c.toNat - 87)
  else if 'A' ≤ c && c ≤ 'F' then some (c.toNat - 55)
  else none

/-- Four hexadecimal digits, for a unicode escape. -/
def hex4 : List Char → Option (Nat × List Char)
  | a :: b :: c :: d :: rest =>
    (match hexVal a, hexVal b, hexVal c, hexVal d with
     | some x, some y, some z, some w => some (((x * 16 + y) * 16 + z) * 16 + w, rest)
     | _, _, _, _ => none)
  | _ => none

/-- Decimal digits to a natural number. -/
def digitsToNat (l : List Char) : Nat := l.foldl (fun n c => n * 10 + (c.toNat - 48)) 0

/-- The exponent part of a JSON number, if well-formed at this position:
consumed flag, negative flag, digits, remainder. -/
def parseExpPart (r : List Char) : Bool × Bool × List Char × List Char :=
  match r with
  | e :: s :: rr =>
    if e = 'e' || e = 'E' then
      if s = '+' || s = '-' then
        (let ds := rr.takeWhile Char.isDigit
         if ds.isEmpty then (false, false, [], r) else (true, s = '-', ds, rr.drop ds.length))
      else
        (let ds := (s :: rr).takeWhile Char.isDigit
         if ds.isEmpty then (false, false, [], r)
         else (true, false, ds, (s :: rr).drop ds.length))
    else (false, false, [], r)
  | _ => (false, false, [], r)

/-- A JSON number literal at the head of the input: optional minus, an
integer part without leading zeros, optional fraction, optional exponent.
Yields jint when neither fraction nor exponent is present, jnum otherwise. -/
def parseJNum (l : List Char) : Option (JsonVal × List Char) :=
  let signAndRest := match l with | '-' :: r => (true, r) | _ => (false, l)
  let neg := signAndRest.1
  let l1 := signAndRest.2
  match l1 with
  | [] => none
  | c :: _ =>
    if c.isDigit then
      let intDigits := if c = '0' then ['0'] else l1.takeWhile Char.isDigit
      let r1 := l1.drop intDigits.length
      let fracAndRest :=
        match r1 with
        | '.' :: rr =>
          (let ds := rr.takeWhile Char.isDigit
           if ds.isEmpty then (([] : List Char), r1) else (ds, rr.drop ds.length))
        | _ => ([], r1)
      let fracDigits := fracAndRest.1
      let r2 := fracAndRest.2
      let ex := parseExpPart r2
      let hasExp := ex.1
      let expNeg := ex.2.1
      let expDigits := ex.2.2.1
      let r3 := ex.2.2.2
      if fracDigits.isEmpty && !hasExp then
        some (.jint (if neg then -(digitsToNat intDigits : Int) else (digitsToNat intDigits : Int)), r1)
      else
        let mantissa : Int :=
          if neg then -(digitsToNat (intDigits ++ fracDigits) : Int)
          else (digitsToNat (intDigits ++ fracDigits) : Int)
        let expVal : Int :=
          (if expNeg then -(digitsToNat expDigits : Int) else (digitsToNat expDigits : Int))
            - (fracDigits.length : Int)
        some (.jnum mantissa expVal, r3)
    else none

mutual

/-- Recursive-descent json.loads value parser (fuelled; the fuel of the
input length plus one always suffices because every recursive call follows
the consumption of at least one character). Modelled fragment: objects,
arrays, strings with the standard escapes and BMP unicode escapes,
numbers, true/false/null. NaN/Infinity literals and surrogate-pair
escapes are outside the modelled fragment. -/
def parseJVal : Nat → List Char → Option (JsonVal × List Char)
  | 0, _ => none
  | fuel + 1, l0 =>
    match l0.dropWhile jsonWsCh with
    | [] => none
    | '{' :: rest =>
      (match rest.dropWhile jsonWsCh with
       | '}' :: r2 => some (.jobj [], r2)
       | r => parseJMembers fuel r [])
    | '[' :: rest =>
      (match rest.dropWhile jsonWsCh with
       | ']' :: r2 => some (.jarr [], r2)
       | r => parseJItems fuel r [])
    | '"' :: rest => (parseJStr fuel rest []).map (fun p => (JsonVal.jstr p.1, p.2))
    | 't' :: rest => if "rue".data.isPrefixOf rest then some (.jbool true, rest.drop 3) else none
    | 'f' :: rest => if "alse".data.isPrefixOf rest then some (.jbool false, rest.drop 4) else none
    | 'n' :: rest => if "ull".data.isPrefixOf rest then some (.jnull, rest.drop 3) else none
    | l => parseJNum l

/-- Object members after the opening brace (acc in reverse order). -/
def parseJMembers : Nat → List Char → List (String × JsonVal) →
    Option (JsonVal × List Char)
  | 0, _, _ => none
  | fuel + 1, l, acc =>
    match l.dropWhile jsonWsCh with
    | '"' :: rest =>
      (match parseJStr fuel rest [] with
       | none => none
       | some (k, r1) =>
         match r1.dropWhile jsonWsCh with
         | ':' :: r3 =>
           (match parseJVal fuel r3 with
            | none => none
            | some (v, r4) =>
              match r4.dropWhile jsonWsCh with
              | ',' :: r6 => parseJMembers fuel r6 ((k, v) :: acc)
              | '}' :: r6 => some (.jobj ((k, v) :: acc).reverse, r6)
              | _ => none)
         | _ => none)
    | _ => none

/-- Array items after the opening bracket (acc in reverse order). -/
def parseJItems : Nat → List Char → List JsonVal → Option (JsonVal × List Char)
  | 0, _, _ => none
  | fuel + 1, l, acc =>
    match parseJVal fuel l with
    | none => none
    | some (v, r) =>
      match r.dropWhile jsonWsCh with
      | ',' :: r2 => parseJItems fuel r2 (v :: acc)
      | ']' :: r2 => some (.jarr (v :: acc).reverse, r2)
      | _ => none

/-- String body after the opening quote (acc in reverse order). -/
def parseJStr : Nat → List Char → List Char → Option (String × List Char)
  | 0, _, _ => none
  | fuel + 1, l, acc =>
    match l with
    | [] => none
    | '"' :: rest => some ((⟨acc.reverse⟩ : String), rest)
    | '\\' :: e :: rest =>
      (match e with
       | '"' => parseJStr fuel rest ('"' :: acc)
       | '\\' => parseJStr fuel rest ('\\' :: acc)
       | '/' => parseJStr fuel rest ('/' :: acc)
       | 'b' => parseJStr fuel rest ('\x08' :: acc)
       | 'f' => parseJStr fuel rest ('\x0c' :: acc)
       | 'n' => parseJStr fuel rest ('\n' :: acc)
       | 'r' => parseJStr fuel rest ('\r' :: acc)
       | 't' => parseJStr fuel rest ('\t' :: acc)
       | 'u' =>
         (match hex4 rest with
          | some (n, r2) => parseJStr fuel r2 (Char.ofNat n :: acc)
          | none => none)
       | _ => none)
    | '\\' :: [] => none
    | c :: rest => if c.toNat < 32 then none else parseJStr fuel rest (c :: acc)

end

/-- json.loads: parse a complete value, allowing only trailing whitespace. -/
def jsonLoads (s : String) : Option JsonVal :=
  match parseJVal (s.data.length + 1) s.data with
  | some (v, r) => if (r.dropWhile jsonWsCh).isEmpty then some v else none
  | none => none

/-- Python str.find of a character: index of its first occurrence. -/
def firstIdxOf (c : Char) : List Char → Option Nat
  | [] => none
  | d :: rest => if d = c then some 0 else (firstIdxOf c rest).map (fun i => i + 1)

/-- Python str.rfind of a character: index of its last occurrence. -/
def lastIdxOf (c : Char) (l : List Char) : Option Nat :=
  (firstIdxOf c l.reverse).map (fun i => l.length - 1 - i)

/-- The lenient span parse of _find_matching_table_with_llm (lines
411-417): first opening brace to last closing brace, then json.loads.
None when either brace is absent or the slice is not valid JSON. -/
def parseResponseSpan (resp : String) : Option JsonVal :=
  match firstIdxOf '{' resp.data, lastIdxOf '}' resp.data with
  | some s, some e => jsonLoads ⟨(resp.data.drop s).take (e + 1 - s)⟩
  | _, _ => none

/-- Python dict lookup on JSON-decoded members (duplicate keys: the last
occurrence wins, as in json.loads). -/
def dictGet (fields : List (String × JsonVal)) (key : String) : Option JsonVal :=
  (fields.reverse.find? (fun kv => kv.1 == key)).map (fun kv => kv.2)

/-- The value a decoded JSON field yields when Python uses it as a list
index: an int is itself, a bool is 0 or 1 (bool is an int subclass); any
other type raises in the comparison or the indexing, which the enclosing
handler converts to a None result, so no index value is produced. -/
def pyIntOfJson : JsonVal → Option Int
  | .jint n => some n
  | .jbool b => some (if b then 1 else 0)
  | _ => none

/-- A matched table as returned by _find_matching_table_with_llm: the
copied table dictionary with the match_confidence and match_reasoning
values taken from the reply (defaults 0.8 and the empty string). -/
structure MatchedTable where
  info : TableInfo
  matchConfidence : JsonVal
  matchReasoning : JsonVal
deriving Repr

/-- Placeholder used with List.getD at indices already known in range. -/
def defaultTableInfo : TableInfo :=
  { pageNumber := 0, tableIndex := 0, data := [], headers := [],
    rowCount := 0, columnCount := 0, hasNumericData := false, title := "" }

/-- PDFExtractor._find_matching_table_with_llm (lines 347-438), from the
reasoning-service reply on. The reply is the response argument (None for
a null reply). Every failure path of the source - falsy reply, missing
brace, JSON decode error, non-dict JSON, non-integer index, out-of-range
index - returns None; only a well-formed reply selecting a valid index
returns a table. -/
def findMatchingTableWithLLM (allTables : List TableInfo) (response : Option String) :
    Option MatchedTable :=
  match response with
  | none => none
  | some resp =>
    if resp = "" then none
    else
      match parseResponseSpan resp with
      | some (.jobj fields) =>
        (match pyIntOfJson ((dictGet fields "matching_table_index").getD (.jint (-1))) with
         | some n =>
           if 0 ≤ n ∧ n < (allTables.length : Int) then
             some { info := allTables.getD n.toNat defaultTableInfo
                    matchConfidence := (dictGet fields "match_confidence").getD (.jnum 8 (-1))
                    matchReasoning := (dictGet fields "match_reasoning").getD (.jstr "") }
           else none
         | none => none)
      | some _ => none
      | none => none

/-- The outcome dictionary of extract_tables_with_llm: either an error
dictionary (success False) or the matched-table dictionary (success True).
An error outcome carries no confidence and no reasoning field. -/
inductive LLMExtractOutcome where
  | failure (errorMsg : String) (availableTables : Option Nat) : LLMExtractOutcome
  | success (tableData : List (List String)) (headers : List String) (title : String)
      (pageNumber : Nat) (rowCount : Nat) (columnCount : Nat)
      (matchConfidence : JsonVal) (matchReasoning : JsonVal)
      (totalTablesScanned : Nat) : LLMExtractOutcome
deriving Repr

/-- PDFExtractor.extract_tables_with_llm (lines 279-345), from the point
where step 1 has produced allTables and the reasoning service has
replied with response. -/
def extractTablesWithLLMStep2 (allTables : List TableInfo) (prompt : String)
    (response : Option String) : LLMExtractOutcome :=
  if allTables.isEmpty then .failure "No tables found in the PDF document" none
  else
    match findMatchingTableWithLLM allTables response with
    | none =>
      .failure ("No table found matching the request: \"" ++ prompt ++ "\"")
        (some allTables.length)
    | some m =>
      .success m.info.data m.info.headers m.info.title m.info.pageNumber
        m.info.rowCount m.info.columnCount m.matchConfidence m.matchReasoning
        allTables.length

example : isHeaderLine "Revenue" = false := by decide
example : isTableEnd "Total  1  2" = true := by decide
example : lineLooksLikeTableData "Total  1  2" = true := by decide
example : parseTableRow "a  b  c" = ["a", "b", "c"] := by decide
example : parseTableRow "a,b, 1,234" = ["a", "b", "1,234"] := by decide
example : isPotentialHeader ["Year", "2024", "2023"] = true := by decide
example : isPotentialHeader ["Cash equivalents", "23466", "29649"] = false := by decide
example : isPotentialHeader ["1999"] = false := by decide
example : isPotentialHeader ["2020"] = true := by decide
example : isMeaningfulNumericalData "See page 5" = true := by decide
example : isMeaningfulNumericalData "Refer to note 3" = false := by decide
example : isMeaningfulNumericalData "2024" = false := by decide
example : isMeaningfulNumericalData "page 12" = false := by decide
example : findTableByIdentifier "foo\nbar\nbaz" "Revenue" = none := by decide

example : findMatchingTableWithLLM [defaultTableInfo] (some "I cannot help with that.") = none := by
  rfl

example :
    findMatchingTableWithLLM [defaultTableInfo]
      (some "\x7b\"matching_table_index\": 0, \"match_confidence\": 7.5\x7d") =
      some { info := defaultTableInfo, matchConfidence := .jnum 75 (-1),
             matchReasoning := .jstr "" } := by
  rfl

example :
    findMatchingTableWithLLM [defaultTableInfo, defaultTableInfo]
      (some "the answer: \x7b\"matching_table_index\": 1, \"match_confidence\": 0.9, \"match_reasoning\": \"looks right\"\x7d ok?") =
      some { info := defaultTableInfo, matchConfidence := .jnum 9 (-1),
             matchReasoning := .jstr "looks right" } := by
  rfl

example :
    findMatchingTableWithLLM [defaultTableInfo] (some "\x7b\"matching_table_index\": 3\x7d") =
      none := by
  rfl

example :
    (extractAllTablesFromText "a  b  c\nTotal  1  2\nx  y  z").map (fun t => t.data) =
      [[["a", "b", "c"], ["Total", "1", "2"], ["x", "y", "z"]]] := by
  decide

example :
    extractTableDataFromText "foo\nbar\nbaz" "Revenue" =
      Except.error "Table with identifier \x27Revenue\x27 not found in PDF" := by
  rfl

example :
    validateTableHasNumericalData
      [["Description", "Notes"], ["See page 5", "Refer to note 3"]] (3 / 10) = false := by
  have h1 : totalCells [["Description", "Notes"], ["See page 5", "Refer to note 3"]] = 4 := by
    decide
  have h2 : numericalCells [["Description", "Notes"], ["See page 5", "Refer to note 3"]] = 1 := by
    decide
  simp only [validateTableHasNumericalData, h1, h2, List.isEmpty_cons, Bool.false_eq_true,
    if_false]
  norm_num

example : normalizeNumberFormat "-" = "0" := by decide
example : normalizeNumberFormat "--" = "--" := by decide
example : normalizeNumberFormat "$1,234.56" = "1234.56" := by decide
example : normalizeNumberFormat "€25,000" = "25000" := by decide
example : normalizeNumberFormat "(500.00)" = "-500.00" := by decide
example : normalizeNumberFormat "($1,000)" = "-1000" := by decide
example : normalizeNumberFormat "45.2%" = "45.2%" := by decide
example : normalizeNumberFormat "1,234.56%" = "1234.56%" := by decide
example : normalizeNumberFormat "(25.5%)" = "(25.5%)" := by decide
example : normalizeNumberFormat "Total assets" = "Total assets" := by decide
example : normalizeNumberFormat "$123m" = "123" := by decide
example : normalizeNumberFormat "5 million" = "5" := by decide
example : normalizeNumberFormat "USD 456m" = "USD 456m" := by decide
example : normalizeNumberFormat ",.5%" = ".5%" := by decide
example : normalizeNumberFormat ".5%" = "5%" := by decide
example : normalizeNumberFormat "( 500 )" = "- 500 " := by decide
example : normalizeNumberFormat "- 500 " = "- 500" := by decide
example : normalizeNumberFormat " Total assets " = "Total assets" := by decide
example : normalizeNumberFormat "(inf)" = "-inf" := by decide
example : normalizeNumberFormat ",%" = "%" := by decide

/-! Helper lemmas. -/

theorem parseResponseSpan_empty_eq_none : parseResponseSpan "" = none := rfl

theorem findAnchorSuffix_eq_none (ident : String) (ls : List String)
    (h : ∀ line ∈ ls, containsSub (pyLower line) (pyLower ident) = false) :
    findAnchorSuffix ident ls = none := by
  induction ls with
  | nil => rfl
  | cons a t ih =>
    simp only [findAnchorSuffix]
    rw [h a (List.mem_cons_self a t)]
    simp only [Bool.false_eq_true, if_false]
    exact ih (fun line hl => h line (List.mem_cons_of_mem a hl))

/-- C1 (amended): when the reasoning-service reply has no brace span or its
brace span is not valid JSON, or when the decoded object names an integer
candidate index outside the candidate range, the matcher returns None - a
result carrying no confidence value and no reasoning text - and, being a
total function, never raises. -/
theorem c1_matcher_failure_returns_none :
    (∀ (tables : List TableInfo) (resp : String), parseResponseSpan resp = none →
      findMatchingTableWithLLM tables (some resp) = none)
    ∧ (∀ (tables : List TableInfo) (resp : String) (fields : List (String × JsonVal)) (n : Int),
        parseResponseSpan resp = some (.jobj fields) →
        pyIntOfJson ((dictGet fields "matching_table_index").getD (.jint (-1))) = some n →
        (n < 0 ∨ (tables.length : Int) ≤ n) →
        findMatchingTableWithLLM tables (some resp) = none) := by
  constructor
  · intro tables resp h
    simp only [findMatchingTableWithLLM]
    split
    · rfl
    · rw [h]
  · intro tables resp fields n hparse hidx hrange
    simp only [findMatchingTableWithLLM]
    split
    · rfl
    · rw [hparse]
      simp only [hidx]
      rw [if_neg]
      rintro ⟨h0, hlt⟩
      rcases hrange with h | h
      · omega
      · omega

/-- C1 witness: the first part of the failure theorem applied to a braceless
concrete reply. -/
theorem c1_matcher_failure_witness :
    findMatchingTableWithLLM [defaultTableInfo] (some "no JSON here") = none :=
  c1_matcher_failure_returns_none.1 [defaultTableInfo] "no JSON here" (by rfl)

/-- C1 counterexample: on the braceless reply of the claim the matcher
returns None - no MatchResult carrying confidence 0.0 and a recorded
failure reason exists - and the caller surfaces an error dictionary that
has no confidence or reasoning field at all. -/
theorem c1_no_match_result_with_zero_confidence :
    findMatchingTableWithLLM [defaultTableInfo] (some "I cannot help with that.") = none
    ∧ extractTablesWithLLMStep2 [defaultTableInfo] "balance sheet"
        (some "I cannot help with that.")
      = .failure "No table found matching the request: \"balance sheet\"" (some 1) :=
  ⟨rfl, rfl⟩

/-- C2 (amended): when no line contains the anchor as a case-insensitive
substring, the anchored segmenter _find_table_by_identifier returns None
(an empty result, raising nothing), but the public caller
extract_table_data converts that into a raised ValueError whose message
reports the table as not found. -/
theorem c2_anchor_not_found :
    ∀ text ident : String,
      (∀ line ∈ pySplitLines text, containsSub (pyLower line) (pyLower ident) = false) →
      findTableByIdentifier text ident = none
      ∧ extractTableDataFromText text ident = Except.error (notFoundMsg ident) := by
  intro text ident h
  have hf : findTableByIdentifier text ident = none := by
    simp only [findTableByIdentifier, findAnchorSuffix_eq_none ident _ h]
  exact ⟨hf, by simp only [extractTableDataFromText, hf]⟩

/-- C2 witness: the theorem applied to the concrete lines foo, bar, baz and
the anchor Revenue of the claim. -/
theorem c2_anchor_not_found_witness :
    findTableByIdentifier "foo\nbar\nbaz" "Revenue" = none
    ∧ extractTableDataFromText "foo\nbar\nbaz" "Revenue" =
        Except.error (notFoundMsg "Revenue") :=
  c2_anchor_not_found "foo\nbar\nbaz" "Revenue" (by decide)

/-- C2 counterexample: on the claim's concrete input the public extraction
entry point raises (an Except.error models the raised ValueError), so the
not-found case is not surfaced to the caller of extract_table_data without
an exception. -/
theorem c2_not_found_raises :
    extractTableDataFromText "foo\nbar\nbaz" "Revenue" =
      Except.error "Table with identifier \x27Revenue\x27 not found in PDF" := rfl

/-- C8 (amended): when the reply's brace span decodes to an object whose
matching_table_index is an integer inside the candidate range, the matcher
attaches the reply's match_confidence value verbatim (defaulting to the
literal 0.8 when the field is absent) with no clamping to the unit
interval; on parse failure or an out-of-range index no MatchResult is
produced at all, so no confidence value - 0.0 or otherwise - is returned. -/
theorem c8_confidence_verbatim :
    ∀ (tables : List TableInfo) (resp : String) (fields : List (String × JsonVal)) (n : Int),
      parseResponseSpan resp = some (.jobj fields) →
      pyIntOfJson ((dictGet fields "matching_table_index").getD (.jint (-1))) = some n →
      0 ≤ n → n < (tables.length : Int) →
      findMatchingTableWithLLM tables (some resp) =
        some { info := tables.getD n.toNat defaultTableInfo
               matchConfidence := (dictGet fields "match_confidence").getD (.jnum 8 (-1))
               matchReasoning := (dictGet fields "match_reasoning").getD (.jstr "") } := by
  intro tables resp fields n hparse hidx h0 hlen
  have hne : ¬(resp = "") := by
    intro he
    rw [he, parseResponseSpan_empty_eq_none] at hparse
    exact Option.noConfusion hparse
  simp only [findMatchingTableWithLLM]
  rw [if_neg hne, hparse]
  simp only [hidx]
  rw [if_pos ⟨h0, hlen⟩]

/-- C8 witness: the pass-through theorem applied to a concrete reply whose
confidence is 0.33. -/
theorem c8_confidence_verbatim_witness :
    findMatchingTableWithLLM [defaultTableInfo]
        (some "\x7b\"matching_table_index\": 0, \"match_confidence\": 0.33, \"match_reasoning\": \"ok\"\x7d")
      = some { info := defaultTableInfo, matchConfidence := .jnum 33 (-2),
               matchReasoning := .jstr "ok" } :=
  c8_confidence_verbatim [defaultTableInfo]
    "\x7b\"matching_table_index\": 0, \"match_confidence\": 0.33, \"match_reasoning\": \"ok\"\x7d"
    [("matching_table_index", .jint 0), ("match_confidence", .jnum 33 (-2)),
     ("match_reasoning", .jstr "ok")] 0 (by rfl) (by rfl) (by decide) (by decide)

/-- C8 counterexample: a reply carrying match_confidence 7.5 selects table
0 and the returned confidence is 7.5, which lies outside the unit
interval, refuting the claimed invariant. -/
theorem c8_confidence_outside_unit_interval :
    findMatchingTableWithLLM [defaultTableInfo]
        (some "\x7b\"matching_table_index\": 0, \"match_confidence\": 7.5\x7d")
      = some { info := defaultTableInfo, matchConfidence := .jnum 75 (-1),
               matchReasoning := .jstr "" }
    ∧ ¬ (jnumVal 75 (-1) ≤ 1) := by
  refine ⟨rfl, ?_⟩
  simp only [jnumVal]
  norm_num

theorem dropWhile_eq_self_of_head {p : Char → Bool} {l : List Char}
    (h : ∀ c, l.head? = some c → p c = false) : l.dropWhile p = l := by
  cases l with
  | nil => rfl
  | cons a t =>
    rw [List.dropWhile_cons, h a rfl]
    simp

theorem pyStripL_eq_self {l : List Char}
    (h1 : ∀ c, l.head? = some c → isPySpace c = false)
    (h2 : ∀ c, l.getLast? = some c → isPySpace c = false) :
    pyStripL l = l := by
  unfold pyStripL
  rw [dropWhile_eq_self_of_head h1]
  rw [dropWhile_eq_self_of_head (fun c hc => h2 c (by rwa [List.head?_reverse] at hc))]
  exact List.reverse_reverse l

theorem wrapped_pyStripL_eq_self {l : List Char} (h : wrappedInParens l = true) :
    pyStripL l = l := by
  rw [wrappedInParens, Bool.and_eq_true, decide_eq_true_eq, decide_eq_true_eq] at h
  apply pyStripL_eq_self
  · intro c hc
    rw [h.1] at hc
    cases hc
    decide
  · intro c hc
    rw [h.2] at hc
    cases hc
    decide

theorem wrapped_ne_nil {l : List Char} (h : wrappedInParens l = true) : l ≠ [] := by
  rw [wrappedInParens, Bool.and_eq_true, decide_eq_true_eq, decide_eq_true_eq] at h
  intro he
  rw [he] at h
  exact Option.noConfusion h.1

theorem wrapped_ne_dash {l : List Char} (h : wrappedInParens l = true) : l ≠ ['-'] := by
  rw [wrappedInParens, Bool.and_eq_true, decide_eq_true_eq, decide_eq_true_eq] at h
  intro he
  rw [he] at h
  simp at h

theorem mem_of_pyStripL {c : Char} {l : List Char} (h : c ∈ pyStripL l) : c ∈ l := by
  unfold pyStripL at h
  rw [List.mem_reverse] at h
  have h2 : c ∈ (l.dropWhile isPySpace).reverse := (List.dropWhile_sublist _).subset h
  rw [List.mem_reverse] at h2
  exact (List.dropWhile_sublist _).subset h2

theorem any_pyStripL_eq_false {p : Char → Bool} {l : List Char}
    (h : l.any p = false) : (pyStripL l).any p = false := by
  rw [List.any_eq_false] at h ⊢
  intro c hc
  exact h c (mem_of_pyStripL hc)

/-- C4: a trimmed cell wrapped in parentheses is returned unchanged when it
contains a percent sign; otherwise, when its interior with currency
symbols and commas removed parses as a number, the normalizer returns that
cleaned interior with a minus sign prefixed, as in the accounting-negative
examples of the claim. -/
theorem c4_parenthesized_cells :
    (∀ s : String, wrappedInParens s.data = true →
      (s.data.contains '%' = true → normalizeNumberFormat s = s)
      ∧ (s.data.contains '%' = false →
          isNumber ⟨stripCurrencyCommaL ((s.data.drop 1).dropLast)⟩ = true →
          normalizeNumberFormat s =
            "-" ++ (⟨stripCurrencyCommaL ((s.data.drop 1).dropLast)⟩ : String)))
    ∧ normalizeNumberFormat "(25.5%)" = "(25.5%)"
    ∧ normalizeNumberFormat "(500.00)" = "-500.00"
    ∧ normalizeNumberFormat "($1,000)" = "-1000" := by
  refine ⟨?_, by decide, by decide, by decide⟩
  intro s hw
  have hstrip : pyStripL s.data = s.data := wrapped_pyStripL_eq_self hw
  have hne : ¬(s.data = []) := wrapped_ne_nil hw
  have hnd : ¬(s.data = ['-']) := wrapped_ne_dash hw
  constructor
  · intro hpc
    simp only [normalizeNumberFormat, hstrip]
    rw [if_neg hne, if_neg hnd, if_pos hpc, if_pos hw]
  · intro hpc hnum
    simp only [normalizeNumberFormat, hstrip]
    rw [if_neg hne, if_neg hnd,
      if_neg (fun hx => by rw [hpc] at hx; exact Bool.noConfusion hx),
      if_pos (by rw [Bool.and_eq_true]; exact ⟨hw, hnum⟩)]

/-- C4 witness: the accounting-negative part of the theorem applied to the
concrete cell of the claim. -/
theorem c4_parenthesized_cells_witness :
    normalizeNumberFormat "(500.00)" =
      "-" ++ (⟨stripCurrencyCommaL (("(500.00)".data.drop 1).dropLast)⟩ : String) :=
  (c4_parenthesized_cells.1 "(500.00)" (by decide)).2 (by decide) (by decide)

/-- C9: for a trimmed cell with at least one digit, no percent sign and no
parenthesis wrapping, the normalizer strips currency symbols and commas,
drops a standalone m suffix or the word million, and returns the cleaned
text when it parses as a number, the original trimmed text otherwise; the
two currency examples of the claim evaluate as stated. -/
theorem c9_digit_cell_cleanup :
    (∀ s : String, pyStripL s.data = s.data → s.data.any Char.isDigit = true →
      s.data.contains '%' = false → wrappedInParens s.data = false →
      (isNumber ⟨cleanedMillion (stripCurrencyCommaL s.data)⟩ = true →
        normalizeNumberFormat s = (⟨cleanedMillion (stripCurrencyCommaL s.data)⟩ : String))
      ∧ (isNumber ⟨cleanedMillion (stripCurrencyCommaL s.data)⟩ = false →
        normalizeNumberFormat s = s))
    ∧ normalizeNumberFormat "$1,234.56" = "1234.56"
    ∧ normalizeNumberFormat "€25,000" = "25000" := by
  refine ⟨?_, by decide, by decide⟩
  intro s hstrip hdig hpc hwrap
  have hne : ¬(s.data = []) := by
    intro he
    rw [he] at hdig
    exact Bool.noConfusion hdig
  have hnd : ¬(s.data = ['-']) := by
    intro he
    rw [he] at hdig
    exact absurd hdig (by decide)
  have hand : ¬((wrappedInParens s.data
      && isNumber ⟨stripCurrencyCommaL ((s.data.drop 1).dropLast)⟩) = true) := by
    rw [Bool.and_eq_true]
    rintro ⟨hx, _⟩
    rw [hwrap] at hx
    exact Bool.noConfusion hx
  constructor
  · intro hnum
    simp only [normalizeNumberFormat, hstrip]
    rw [if_neg hne, if_neg hnd,
      if_neg (fun hx => by rw [hpc] at hx; exact Bool.noConfusion hx),
      if_neg hand, if_pos hdig, if_pos hnum]
  · intro hnum
    simp only [normalizeNumberFormat, hstrip]
    rw [if_neg hne, if_neg hnd,
      if_neg (fun hx => by rw [hpc] at hx; exact Bool.noConfusion hx),
      if_neg hand, if_pos hdig,
      if_neg (fun hx => by rw [hnum] at hx; exact Bool.noConfusion hx)]

/-- C9 witness: the cleanup theorem applied to the concrete currency cell
of the claim. -/
theorem c9_digit_cell_cleanup_witness :
    normalizeNumberFormat "$1,234.56" =
      (⟨cleanedMillion (stripCurrencyCommaL "$1,234.56".data)⟩ : String) :=
  (c9_digit_cell_cleanup.1 "$1,234.56" (by decide) (by decide) (by decide) (by decide)).1
    (by decide)

/-- C10 (amended): an input without digits that is not whitespace-only and
not a lone dash after trimming is returned with its leading and trailing
whitespace stripped - not byte-for-byte unchanged - except in two
degenerate corners the code carves out: a digitless percent-run match
(a comma run before the percent sign) and a parenthesized interior that
parses as a float word such as inf or nan; and the normalizer, a total
function, never raises. -/
theorem c10_no_digit_strip_passthrough :
    (∀ s : String, s.data.any Char.isDigit = false →
      ¬(pyStripL s.data = []) → ¬(pyStripL s.data = ['-']) →
      ((pyStripL s.data).contains '%' = true →
        wrappedInParens (pyStripL s.data) = true
        ∨ searchPercentRun (pyStripL s.data) = none) →
      (wrappedInParens (pyStripL s.data) = true →
        isNumber ⟨stripCurrencyCommaL (((pyStripL s.data).drop 1).dropLast)⟩ = false) →
      normalizeNumberFormat s = pyStrip s)
    ∧ normalizeNumberFormat "Total assets" = "Total assets" := by
  refine ⟨?_, by decide⟩
  intro s hdig hne hnd hpc hwrapnum
  have hdigs : (pyStripL s.data).any Char.isDigit = false := any_pyStripL_eq_false hdig
  simp only [normalizeNumberFormat]
  rw [if_neg hne, if_neg hnd]
  by_cases hc : (pyStripL s.data).contains '%' = true
  · rw [if_pos hc]
    by_cases hw : wrappedInParens (pyStripL s.data) = true
    · rw [if_pos hw]
      rfl
    · rw [if_neg hw]
      rcases hpc hc with h | h
      · exact absurd h hw
      · rw [h]
        rfl
  · rw [if_neg hc]
    have hand : ¬((wrappedInParens (pyStripL s.data)
        && isNumber ⟨stripCurrencyCommaL (((pyStripL s.data).drop 1).dropLast)⟩) = true) := by
      rw [Bool.and_eq_true]
      rintro ⟨hx, hy⟩
      rw [hwrapnum hx] at hy
      exact Bool.noConfusion hy
    rw [if_neg hand,
      if_neg (fun hx => by rw [hdigs] at hx; exact Bool.noConfusion hx)]
    rfl

/-- C10 witness: the amended theorem applied to the whitespace-carrying
concrete input, whose result is the trimmed text. -/
theorem c10_no_digit_strip_passthrough_witness :
    normalizeNumberFormat " Total assets " = pyStrip " Total assets " :=
  c10_no_digit_strip_passthrough.1 " Total assets "
    (by decide) (by decide) (by decide) (by decide) (by decide)

/-- C10 counterexample: an input with leading and trailing whitespace and
no digits is returned trimmed, not unchanged. -/
theorem c10_whitespace_not_preserved :
    normalizeNumberFormat " Total assets " = "Total assets"
    ∧ (" Total assets " : String) ≠ "Total assets" :=
  ⟨by decide, by decide⟩

/-- C3: normalization is not idempotent. At the failing input of a comma
and dot before 5 percent, the first pass extracts the percent run and
yields dot-5-percent, but a second pass extracts only the digit and yields
5-percent, so normalize composed with itself differs from normalize. -/
theorem c3_normalize_not_idempotent :
    normalizeNumberFormat ",.5%" = ".5%"
    ∧ normalizeNumberFormat ".5%" = "5%"
    ∧ normalizeNumberFormat (normalizeNumberFormat ",.5%") ≠ normalizeNumberFormat ",.5%" :=
  ⟨by decide, by decide, by decide⟩

/-- C5 (amended): the header predicate is true exactly when the row is
non-empty and its joined lowered text matches one of the implemented
header-indicator patterns - whose year alternation covers only the
literal years 2020 through 2024, not the full 1900-2099 range - or
strictly more than 60 percent of its cells contain no digit; the claim's
two concrete examples evaluate as stated, and 2020 is matched while 2019
is not. -/
theorem c5_header_predicate_characterization :
    (∀ row : List String, isPotentialHeader row = true ↔
      (¬(row = []) ∧ (headerPatternsMatch (pyLower (joinSpace row)) = true
        ∨ 5 * row.countP (fun c => !containsNumber c) > 3 * row.length)))
    ∧ isPotentialHeader ["Year", "2024", "2023"] = true
    ∧ isPotentialHeader ["Cash equivalents", "23466", "29649"] = false
    ∧ isPotentialHeader ["2020"] = true
    ∧ isPotentialHeader ["2019"] = false := by
  refine ⟨?_, by decide, by decide, by decide, by decide⟩
  intro row
  rcases row with _ | ⟨a, t⟩
  · simp [isPotentialHeader]
  · simp only [isPotentialHeader, List.isEmpty_cons]
    by_cases hp : headerPatternsMatch (pyLower (joinSpace (a :: t))) = true
    · simp [hp]
    · simp [hp]

/-- C5 counterexample: a bare four-digit year inside 1900-2099 that is not
one of the five hard-coded years is not header-indicating, and the
single-cell row of it is not classified as a header. -/
theorem c5_year_1999_not_header : isPotentialHeader ["1999"] = false := by decide

/-- C6: with the threshold and cell fraction as exact rationals, the
numerical-data validator accepts a table with at least one non-empty cell
exactly when the fraction of meaningful numeric cells among non-empty
cells reaches the threshold; the prose table of the claim fails at the
default threshold of 0.3. -/
theorem c6_validator_threshold :
    (∀ (table : List (List String)) (thr : ℚ), 0 < totalCells table →
      (validateTableHasNumericalData table thr = true ↔
        thr * (totalCells table : ℚ) ≤ (numericalCells table : ℚ)))
    ∧ validateTableHasNumericalData
        [["Description", "Notes"], ["See page 5", "Refer to note 3"]] (3 / 10) = false := by
  have main : ∀ (table : List (List String)) (thr : ℚ), 0 < totalCells table →
      (validateTableHasNumericalData table thr = true ↔
        thr * (totalCells table : ℚ) ≤ (numericalCells table : ℚ)) := by
    intro table thr htot
    have hne : ¬(table.isEmpty = true) := by
      intro he
      rw [List.isEmpty_iff] at he
      rw [he] at htot
      exact absurd htot (by decide)
    have htz : ¬(totalCells table = 0) := by omega
    simp only [validateTableHasNumericalData]
    rw [if_neg hne, if_neg htz, decide_eq_true_eq, ge_iff_le,
      le_div_iff₀ (by exact_mod_cast htot)]
  refine ⟨main, ?_⟩
  have h1 : totalCells [["Description", "Notes"], ["See page 5", "Refer to note 3"]] = 4 := by
    decide
  have h2 : numericalCells [["Description", "Notes"], ["See page 5", "Refer to note 3"]] = 1 := by
    decide
  have h3 := main [["Description", "Notes"], ["See page 5", "Refer to note 3"]] (3 / 10)
    (by rw [h1]; norm_num)
  rw [h1, h2] at h3
  have h4 : ¬((3 : ℚ) / 10 * ((4 : Nat) : ℚ) ≤ ((1 : Nat) : ℚ)) := by push_cast; norm_num
  exact Bool.eq_false_iff.mpr (fun ht => h4 (h3.mp ht))

/-- C6 witness: the characterization applied to a concrete two-row table
with one non-empty cell threshold check discharged by computation. -/
theorem c6_validator_threshold_witness :
    validateTableHasNumericalData [["Revenue", "100"], ["Cost", "50"]] (3 / 10) = true ↔
      (3 : ℚ) / 10 * (totalCells [["Revenue", "100"], ["Cost", "50"]] : ℚ) ≤
        (numericalCells [["Revenue", "100"], ["Cost", "50"]] : ℚ) :=
  c6_validator_threshold.1 [["Revenue", "100"], ["Cost", "50"]] (3 / 10) (by decide)

theorem parseTableRow_ne_nil {line : String} (h : ¬(line = "")) :
    ¬(parseTableRow line = []) := by
  simp only [parseTableRow]
  split
  · next h1 => exact List.ne_nil_of_length_pos (by omega)
  · split
    · next h2 => exact List.ne_nil_of_length_pos (by omega)
    · split
      · next h3 => exact List.ne_nil_of_length_pos (by omega)
      · split
        · next h4 => exact List.ne_nil_of_length_pos (by omega)
        · simp [h]

theorem strip_ne_empty_of_looks {l : String}
    (h : lineLooksLikeTableData (pyStrip l) = true) : ¬(pyStrip l = "") := by
  intro he
  rw [he] at h
  exact absurd h (by decide)

theorem extractAllGo_data (ls : List String) :
    ∀ (cur : List (List String)) (n : Nat),
      (extractAllGo ls cur n).map (fun t => t.data) = segmentTablesSpecGo ls cur := by
  induction ls with
  | nil =>
    intro cur n
    simp only [extractAllGo, segmentTablesSpecGo]
    by_cases h : cur.length > 1
    · rw [if_pos h, if_pos (by omega)]
      rfl
    · rw [if_neg h, if_neg (by omega)]
      rfl
  | cons l ls ih =>
    intro cur n
    simp only [extractAllGo, segmentTablesSpecGo]
    by_cases hl : lineLooksLikeTableData (pyStrip l) = true
    · rw [if_pos hl, if_pos hl]
      have hrow : ¬((parseTableRow (pyStrip l)).isEmpty = true) := by
        rw [List.isEmpty_iff]
        exact parseTableRow_ne_nil (strip_ne_empty_of_looks hl)
      rw [if_neg hrow]
      exact ih _ n
    · rw [if_neg hl, if_neg hl]
      by_cases hc : cur = []
      · subst hc
        rw [if_neg (by decide), if_neg (by norm_num), List.nil_append]
        exact ih [] n
      · have hb : (!cur.isEmpty) = true := by
          simp [List.isEmpty_iff, hc]
        rw [if_pos hb]
        by_cases hlen : cur.length > 1
        · rw [if_pos hlen, if_pos (by omega)]
          simp only [List.map_cons, List.singleton_append]
          rw [ih [] (n + 1)]
          rfl
        · rw [if_neg hlen, if_neg (by omega), List.nil_append]
          exact ih [] n

/-- C7 (amended): exhaustive segmentation accumulates maximal runs of
consecutive table-data-looking lines into candidate tables and discards
runs shorter than two rows; a run ends only at a blank line or a line
failing the table-data test - the end-of-table predicate is not consulted
in this mode. The theorem equates the data rows of the accumulator loop
with the spec-side declarative segmentation. -/
theorem c7_exhaustive_segmentation :
    ∀ text : String,
      (extractAllTablesFromText text).map (fun t => t.data) =
        segmentTablesSpec (pySplitLines text) :=
  fun text => extractAllGo_data (pySplitLines text) [] 0

/-- C7 counterexample: the middle line matches the end-of-table predicate
and still looks like table data, and exhaustive segmentation keeps it
inside a single three-row run instead of ending the run there. -/
theorem c7_end_predicate_not_consulted :
    isTableEnd "Total  1  2" = true
    ∧ lineLooksLikeTableData "Total  1  2" = true
    ∧ (extractAllTablesFromText "a  b  c\nTotal  1  2\nx  y  z").map (fun t => t.data) =
        [[["a", "b", "c"], ["Total", "1", "2"], ["x", "y", "z"]]] :=
  ⟨by decide, by decide, by decide⟩
